import Mathlib

/-!
Verification of `src/instructions/interrupts.rs` of the x86_64 crate.

The module controls the CPU interrupt-admission flag (bit 9 of RFLAGS,
the IF flag) of the executing core.  The only mutable state visible to
this module is that single bit, so stateful Rust code is embedded as
explicit state passing over `Bool` (the current value of the IF flag).
In addition each operation records the trace of privileged instructions
it issues (`sti`, `cli`) and flag reads it performs, so that claims of
the form "performs no toggle" or "reads the flag exactly once" are
expressible.
-/

namespace Interrupts

/-- An observable action of this module on the hardware:
issuing `sti`, issuing `cli`, or reading the IF bit of RFLAGS. -/
inductive Ev
| sti
| cli
| readIF
deriving DecidableEq, Repr

/-- Bit 9 of RFLAGS, the interrupt-enable flag.
Numeric value taken from the x86_64 architecture (`RFlags::INTERRUPT_FLAG`). -/
def INTERRUPT_FLAG : Nat := 2 ^ 9

/-- Modelled from the spec: `crate::registers::rflags::read` is outside this
module's source.  The spec describes it as "a flags-register read/write
collaborator supplying the raw admission bit" with no side effects, so it
returns an RFLAGS word whose IF bit is the current admission state and
leaves the state unchanged. -/
def rflags_read (s : Bool) : Nat × Bool :=
  ((if s then INTERRUPT_FLAG else 0), s)

/-- `bitflags` `contains`: all bits of `flag` are set in `r`. -/
def rflags_contains (r : Nat) (flag : Nat) : Bool :=
  r.land flag == flag

/-- Embeds `are_enabled`: `rflags::read().contains(RFlags::INTERRUPT_FLAG)`.
Returns the query result, the (unchanged) state, and the trace. -/
def are_enabled (s : Bool) : Bool × Bool × List Ev :=
  let r := rflags_read s
  (rflags_contains r.1 INTERRUPT_FLAG, r.2, [Ev.readIF])

/-- Embeds `enable`: the `sti` instruction sets the IF flag
(the externally linked `x86_64_asm_interrupt_enable` routine does the same). -/
def enable (_s : Bool) : Bool × List Ev :=
  (true, [Ev.sti])

/-- Embeds `disable`: the `cli` instruction clears the IF flag
(the externally linked `x86_64_asm_interrupt_disable` routine does the same). -/
def disable (_s : Bool) : Bool × List Ev :=
  (false, [Ev.cli])

/-- Embeds `without_interrupts`.  The closure `f` is embedded as a state
transformer producing a result, the state it leaves, and its own trace. -/
def without_interrupts {R : Type} (f : Bool → R × Bool × List Ev) (s : Bool) :
    R × Bool × List Ev :=
  -- let saved_intpt_flag = are_enabled();
  let a := are_enabled s
  let saved_intpt_flag := a.1
  -- if saved_intpt_flag { disable(); }
  let d := if saved_intpt_flag then disable a.2.1 else (a.2.1, [])
  -- let ret = f();
  let r := f d.1
  -- if saved_intpt_flag { enable(); }
  let e := if saved_intpt_flag then enable r.2.1 else (r.2.1, [])
  -- ret
  (r.1, e.1, a.2.2 ++ d.2 ++ r.2.2 ++ e.2)

@[simp]
theorem are_enabled_eq (s : Bool) : are_enabled s = (s, s, [Ev.readIF]) := by
  cases s <;> decide

theorem wi_true_eq {R : Type} (f : Bool → R × Bool × List Ev) :
    without_interrupts f true =
      ((f false).1, true, Ev.readIF :: Ev.cli :: ((f false).2.2 ++ [Ev.sti])) := by
  simp [without_interrupts, enable, disable]

theorem wi_false_eq {R : Type} (f : Bool → R × Bool × List Ev) :
    without_interrupts f false =
      ((f false).1, (f false).2.1, Ev.readIF :: (f false).2.2) := by
  simp [without_interrupts, enable, disable]

end Interrupts

open Interrupts

/-- C1: for every entry state of the interrupt-admission flag and every
callable `work`, `without_interrupts work` returns exactly the value produced
by `work`, unchanged.  (In every run, `work` is invoked exactly once, in the
state with interrupts disabled, so the value it produces is `(f false).1`.) -/
theorem without_interrupts_return_transparent {R : Type}
    (f : Bool → R × Bool × List Ev) (s : Bool) :
    (without_interrupts f s).1 = (f false).1 := by
  cases s
  · rw [wi_false_eq]
  · rw [wi_true_eq]

/-- C2: if the admission flag is set at entry and `work` does not mutate the
admission state, then `work` runs with the flag clear for its whole execution
(it is invoked in state `false` and, being non-mutating, leaves state
`false`), and immediately after `without_interrupts` returns the flag is set
again. -/
theorem without_interrupts_enabled_entry {R : Type}
    (f : Bool → R × Bool × List Ev) (hf : ∀ b, (f b).2.1 = b) :
    (f false).2.1 = false ∧
      without_interrupts f true =
        ((f false).1, true, Ev.readIF :: Ev.cli :: ((f false).2.2 ++ [Ev.sti])) :=
  ⟨hf false, wi_true_eq f⟩

/-- Witness for C2 at the concrete callable returning 42 without touching
the state. -/
theorem without_interrupts_enabled_entry_witness :
    ((fun b => (42, b, [])) false : Nat × Bool × List Ev).2.1 = false ∧
      without_interrupts (fun b => (42, b, [])) true =
        (42, true, Ev.readIF :: Ev.cli :: (([] : List Ev) ++ [Ev.sti])) :=
  without_interrupts_enabled_entry (fun b => (42, b, [])) (fun _ => rfl)

/-- C3: if the admission flag is clear at entry and `work` does not mutate the
admission state, `without_interrupts` performs no toggle at all (its trace
adds only the entry flag read, no `sti` and no `cli`): the flag stays clear
throughout `work` and after the call returns. -/
theorem without_interrupts_disabled_entry {R : Type}
    (f : Bool → R × Bool × List Ev) (hf : ∀ b, (f b).2.1 = b) :
    without_interrupts f false =
      ((f false).1, false, Ev.readIF :: (f false).2.2) := by
  rw [wi_false_eq, hf false]

/-- Witness for C3 at the concrete callable returning 7 without touching
the state. -/
theorem without_interrupts_disabled_entry_witness :
    without_interrupts (fun b => (7, b, [])) false =
      ((7 : Nat), false, Ev.readIF :: ([] : List Ev)) :=
  without_interrupts_disabled_entry (fun b => (7, b, [])) (fun _ => rfl)

/-- C4: nesting is handled by state, not a counter.  Starting with the flag
set, the outer work runs the inner `without_interrupts g` and additionally
reports the state it observes right after the inner call.  The result shows:
the inner call runs `g` at state `false` (flag clear at inner entry), the
state observed after the inner call is still `false` (the inner exit performs
no restoration: its trace contributes only its flag read and `g`'s own trace,
no `sti`), and only the outer exit issues the single `sti` that sets the flag
again. -/
theorem without_interrupts_nesting {R : Type}
    (g : Bool → R × Bool × List Ev) (hg : ∀ b, (g b).2.1 = b) :
    without_interrupts
        (fun s =>
          let i := without_interrupts g s
          ((i.1, i.2.1), i.2.1, i.2.2))
        true =
      (((g false).1, false), true,
        Ev.readIF :: Ev.cli ::
          ((Ev.readIF :: (g false).2.2) ++ [Ev.sti])) := by
  rw [wi_true_eq]
  simp [wi_false_eq, hg false]

/-- Witness for C4 at a concrete inner callable. -/
theorem without_interrupts_nesting_witness :
    without_interrupts
        (fun s =>
          let i := without_interrupts (fun b => (5, b, [])) s
          ((i.1, i.2.1), i.2.1, i.2.2))
        true =
      ((((5 : Nat), false) : Nat × Bool), true,
        Ev.readIF :: Ev.cli ::
          ((Ev.readIF :: ([] : List Ev)) ++ [Ev.sti])) :=
  without_interrupts_nesting (fun b => (5, b, [])) (fun _ => rfl)

/-- C5: from every prior state, after `enable` the query `are_enabled`
returns true and after `disable` it returns false; each is idempotent, so a
repeated call in the target state leaves the observable state unchanged. -/
theorem enable_disable_idempotent (s : Bool) :
    (are_enabled (enable s).1).1 = true ∧
      (are_enabled (disable s).1).1 = false ∧
      (enable (enable s).1).1 = (enable s).1 ∧
      (disable (disable s).1).1 = (disable s).1 := by
  cases s <;> decide

/-- C6: `are_enabled` has no side effects: it returns the current value of
the admission bit and leaves the state unchanged, issuing no privileged
instruction (its trace is only the flag read). -/
theorem are_enabled_no_side_effects (s : Bool) :
    are_enabled s = (s, s, [Ev.readIF]) :=
  are_enabled_eq s

/-- C9: `without_interrupts` reads the admission flag exactly once, at entry
(the single `Ev.readIF` its wrapper contributes heads the trace), and its
exit action depends only on that saved value `s`, never on the state at exit:
the `sti` is present iff `s` is true.  Consequently, for every `work`
(mutating or not), the exit state is `s || (state left by work)`: a set entry
value forces re-enable even if `work` disabled, and with a clear entry value
whatever `work` left (including an enable) persists. -/
theorem without_interrupts_exit_state {R : Type}
    (f : Bool → R × Bool × List Ev) (s : Bool) :
    without_interrupts f s =
      ((f false).1, s || (f false).2.1,
        Ev.readIF ::
          ((if s then [Ev.cli] else []) ++ (f false).2.2 ++
            (if s then [Ev.sti] else []))) := by
  cases s
  · simp [wi_false_eq]
  · simp [wi_true_eq]

namespace Interrupts

/-! ### Hardware model for the fused `sti; hlt` sequence

`enable_and_hlt` is the single asm block `sti; hlt` (or the externally
linked `x86_64_asm_interrupt_enable_and_hlt` routine, which executes the
same two instructions).  Its correctness claims are about the hardware's
delivery rules, which are not code of this module; they are modelled from
the spec: `sti` sets the IF flag but defers interrupt delivery until after
the next instruction completes (the "interrupt shadow"), `cli` clears the
flag, and `hlt` suspends the core until an interrupt is delivered.
Non-maskable interrupts are out of scope, as the spec states. -/

/-- A machine instruction relevant to this module's asm blocks. -/
inductive Instr
| sti
| cli
| hlt
deriving DecidableEq, Repr

/-- How a run of an instruction sequence ends. -/
inductive Outcome
| finished
| sleptForever
deriving DecidableEq, Repr

/-- Core-local hardware state.  `ifl` is the interrupt-admission flag,
`shadow` records that the previous instruction was `sti` so delivery is
deferred across the next instruction boundary, `pending` that a maskable
interrupt has arrived and awaits delivery.  `boundaryDeliveries` records
the instruction boundaries (index of the next instruction) at which an
interrupt was delivered between instructions; `hltDeliveries` the indices
of `hlt` instructions whose sleep ended with a delivery. -/
structure HW where
  ifl : Bool
  shadow : Bool
  pending : Bool
  boundaryDeliveries : List Nat
  hltDeliveries : List Nat
deriving DecidableEq, Repr

/-- Deliver the pending interrupt at boundary `k` when the flag is set and
no interrupt shadow is in force. -/
def boundaryDeliver (k : Nat) (s : HW) : HW :=
  if s.pending && s.ifl && !s.shadow then
    { s with pending := false,
             boundaryDeliveries := s.boundaryDeliveries ++ [k] }
  else s

/-- At the boundary before instruction `k`: the environment's single
interrupt arrives if its scheduled slot is `k` (consuming the schedule),
then delivery is attempted. -/
def atBoundary (a : Option Nat) (k : Nat) (s : HW) : Option Nat × HW :=
  let p := if a = some k then (none, { s with pending := true }) else (a, s)
  (p.1, boundaryDeliver k p.2)

/-- Run an instruction sequence from boundary index `k`.  The schedule `a`
is the arrival slot of the environment's single interrupt; an arrival slot
beyond the current boundary reaches a sleeping `hlt` while it waits.
A `hlt` with the flag clear and nothing able to wake it sleeps forever. -/
def run : Option Nat → List Instr → Nat → HW → HW × Outcome
  | _, [], _, s => (s, Outcome.finished)
  | a, i :: rest, k, s =>
    let p := atBoundary a k s
    match i with
    | Instr.sti => run p.1 rest (k + 1) { p.2 with ifl := true, shadow := true }
    | Instr.cli => run p.1 rest (k + 1) { p.2 with ifl := false, shadow := false }
    | Instr.hlt =>
      -- the shadow of a preceding sti expires once the core starts waiting
      let w := { p.2 with shadow := false }
      if w.pending && w.ifl then
        run p.1 rest (k + 1)
          { w with pending := false, hltDeliveries := w.hltDeliveries ++ [k] }
      else if p.1.isSome && w.ifl then
        -- the interrupt arrives later, during the sleep, and wakes the core
        run none rest (k + 1)
          { w with pending := false, hltDeliveries := w.hltDeliveries ++ [k] }
      else
        (w, Outcome.sleptForever)

/-- Embeds `enable_and_hlt`: the fused `sti; hlt` instruction sequence. -/
def enable_and_hlt : List Instr := [Instr.sti, Instr.hlt]

end Interrupts

/-- C7: the fused `sti; hlt` sequence of `enable_and_hlt`, entered with
interrupts disabled after the caller's pending-work check, loses no wakeup:
for every interrupt (already pending at entry, or arriving at any later
slot), the run ends with the core woken (`finished`, never `sleptForever`),
the interrupt is delivered exactly when the `hlt` at index 1 takes effect,
and no delivery ever happens at an instruction boundary — in particular not
strictly between the `sti` and the `hlt`. -/
theorem enable_and_hlt_no_lost_wakeup (a : Option Nat) (p0 : Bool)
    (h : p0 = true ∨ a.isSome = true) :
    (run a enable_and_hlt 0 ⟨false, false, p0, [], []⟩).2 = Outcome.finished ∧
      (run a enable_and_hlt 0 ⟨false, false, p0, [], []⟩).1.hltDeliveries = [1] ∧
      (run a enable_and_hlt 0 ⟨false, false, p0, [], []⟩).1.boundaryDeliveries = [] := by
  rcases a with _ | (_ | (_ | k)) <;> cases p0 <;>
    simp_all [run, atBoundary, boundaryDeliver, enable_and_hlt]

/-- Witness for C7: an interrupt arriving at slot 0, nothing pending at
entry. -/
theorem enable_and_hlt_no_lost_wakeup_witness :
    (false = true ∨ (some 0 : Option Nat).isSome = true) ∧
      ((run (some 0) enable_and_hlt 0 ⟨false, false, false, [], []⟩).2 =
          Outcome.finished ∧
        (run (some 0) enable_and_hlt 0 ⟨false, false, false, [], []⟩).1.hltDeliveries =
          [1] ∧
        (run (some 0) enable_and_hlt 0 ⟨false, false, false, [], []⟩).1.boundaryDeliveries =
          []) :=
  ⟨Or.inr rfl, enable_and_hlt_no_lost_wakeup (some 0) false (Or.inr rfl)⟩

/-- C10: whenever `enable_and_hlt` returns (the run finishes, i.e. an
interrupt woke the core rather than the core sleeping forever), the
admission flag is set afterwards, regardless of its value before the call;
the function never restores a previously clear flag. -/
theorem enable_and_hlt_enables (a : Option Nat) (i0 p0 : Bool)
    (h : (run a enable_and_hlt 0 ⟨i0, false, p0, [], []⟩).2 = Outcome.finished) :
    (run a enable_and_hlt 0 ⟨i0, false, p0, [], []⟩).1.ifl = true := by
  rcases a with _ | (_ | (_ | k)) <;> cases i0 <;> cases p0 <;>
    simp_all [run, atBoundary, boundaryDeliver, enable_and_hlt]

/-- Witness for C10: entered with the flag clear, interrupt arriving at
slot 2 (during the sleep). -/
theorem enable_and_hlt_enables_witness :
    (run (some 2) enable_and_hlt 0 ⟨false, false, false, [], []⟩).2 =
        Outcome.finished ∧
      (run (some 2) enable_and_hlt 0 ⟨false, false, false, [], []⟩).1.ifl = true :=
  ⟨by decide, enable_and_hlt_enables (some 2) false false (by decide)⟩

namespace Interrupts

/-! ### Build-configuration backends

Each instruction-emitting operation of the module selects, by the
`inline_asm` build feature, between an `asm!` block at the call site and a
call into an externally linked assembly routine (`crate::asm`).  The
routines themselves are outside this module's source; they are modelled
from the spec, which describes the two backends as interchangeable
implementations with identical behaviour.  Which operations each backend
provides, however, is read off the `cfg` attributes in the source:
`software_interrupt` is compiled only when the `inline_asm` feature is
enabled and has no externally linked counterpart. -/

/-- The two instruction-execution backends selected by build
configuration. -/
inductive Backend
| inline_asm
| external_asm
deriving DecidableEq, Repr

/-- The boundary operations of the module that emit instructions. -/
inductive BoundaryOp
| op_enable
| op_disable
| op_enable_and_hlt
| op_int3
| op_software_interrupt
deriving DecidableEq, Repr

/-- An instruction emitted by a backend; `intn v` is `int v`. -/
inductive Eff
| e_sti
| e_cli
| e_hlt
| e_int3
| intn (v : Nat)
deriving DecidableEq, Repr

/-- The instructions a backend executes for an operation (with the vector
argument of `software_interrupt`), or `none` when the build configuration
does not provide the operation under that backend.  The `inline_asm` rows
are the `asm!` blocks of the source; the `external_asm` rows are modelled
from the spec for the `crate::asm` routines, except the
`op_software_interrupt` row, which the source's `cfg` attribute fixes to
`none`. -/
def backendEffect : Backend → BoundaryOp → Nat → Option (List Eff)
  | _, BoundaryOp.op_enable, _ => some [Eff.e_sti]
  | _, BoundaryOp.op_disable, _ => some [Eff.e_cli]
  | _, BoundaryOp.op_enable_and_hlt, _ => some [Eff.e_sti, Eff.e_hlt]
  | _, BoundaryOp.op_int3, _ => some [Eff.e_int3]
  | Backend.inline_asm, BoundaryOp.op_software_interrupt, v => some [Eff.intn v]
  | Backend.external_asm, BoundaryOp.op_software_interrupt, _ => none

end Interrupts

/-- C8 counterexample: `software_interrupt` is not provided by the
externally linked backend (it is compiled only under the `inline_asm`
feature), so not every boundary operation is provided by both backends. -/
theorem software_interrupt_external_missing :
    backendEffect Backend.external_asm BoundaryOp.op_software_interrupt 3 = none :=
  rfl

/-- C8 amended: every instruction-emitting boundary operation other than
`software_interrupt` is provided by both backends with identical behaviour,
and `software_interrupt` is provided only by the direct-emission
(`inline_asm`) backend. -/
theorem backends_agree_except_software_interrupt
    (op : BoundaryOp) (v : Nat) (hop : op ≠ BoundaryOp.op_software_interrupt) :
    backendEffect Backend.inline_asm op v = backendEffect Backend.external_asm op v ∧
      (backendEffect Backend.inline_asm op v).isSome = true ∧
      (backendEffect Backend.inline_asm BoundaryOp.op_software_interrupt v).isSome =
        true ∧
      (backendEffect Backend.external_asm BoundaryOp.op_software_interrupt v).isSome =
        false := by
  cases op <;> simp_all [backendEffect]

/-- Witness for the amended C8 at `enable_and_hlt` with vector argument 0. -/
theorem backends_agree_except_software_interrupt_witness :
    BoundaryOp.op_enable_and_hlt ≠ BoundaryOp.op_software_interrupt ∧
      (backendEffect Backend.inline_asm BoundaryOp.op_enable_and_hlt 0 =
          backendEffect Backend.external_asm BoundaryOp.op_enable_and_hlt 0 ∧
        (backendEffect Backend.inline_asm BoundaryOp.op_enable_and_hlt 0).isSome =
          true ∧
        (backendEffect Backend.inline_asm BoundaryOp.op_software_interrupt 0).isSome =
          true ∧
        (backendEffect Backend.external_asm BoundaryOp.op_software_interrupt 0).isSome =
          false) :=
  ⟨by decide,
    backends_agree_except_software_interrupt BoundaryOp.op_enable_and_hlt 0
      (by decide)⟩
